import Mathlib

/-!
Shallow embedding of the Pelikan cache-server core sampled in this
repository: the admin protocol codec (`protocol/admin/src/admin.rs`), the
memcache `CLIENT_ERROR` response (`client_error.rs`), the RESP `ZREM`
decode/encode (`zrem.rs`), and the `MultiWorker` event loop
(`core/server/src/workers/multi.rs`).  Byte strings are `List Nat`; queue
and socket effects are made explicit through state records and oracles.
-/

namespace Pelikan

/-- Byte strings (Rust `&[u8]` / `Vec<u8>` / `String` contents). -/
abbrev Bytes := List Nat

/-- ASCII bytes of a Lean string literal (every literal used is ASCII). -/
def ascii (s : String) : Bytes := s.data.map Char.toNat

/-- The CRLF line terminator. -/
def crlf : Bytes := ascii "\r\n"

/-- `AdminRequest` (admin.rs lines 19-25): the four admin commands. -/
inductive AdminRequest where
  | flushAll
  | stats
  | version
  | quit
  deriving DecidableEq, Repr

/-- Result of `Protocol::parse_request`: `Ok(ParseOk)` with the consumed byte
count, `Err(WouldBlock)`, or `Err` of any other kind (`invalid`). -/
inductive ParseResult (α : Type) where
  | ok (val : α) (consumed : Nat)
  | wouldBlock
  | invalid
  deriving DecidableEq, Repr

/-- Position of the first CRLF:
`buffer.windows(CRLF.len()).position(|w| w == CRLF)` (admin.rs lines 38-41). -/
def findCRLF : Bytes → Option Nat
  | [] => none
  | [_] => none
  | a :: b :: rest =>
    if a = 13 ∧ b = 10 then some 0 else (findCRLF (b :: rest)).map (· + 1)

/-- Position of the first space byte:
`single_byte_windows.position(|w| w == b" ")` (admin.rs lines 45-46). -/
def findSpace : Bytes → Option Nat
  | [] => none
  | a :: rest => if a = 32 then some 0 else (findSpace rest).map (· + 1)

/-- Horizontal whitespace bytes: space and tab. -/
def isHWS (b : Nat) : Bool := b == 32 || b == 9

/-- Modelled from the spec: `common::bytes::SliceExtension::trim` is not among
the sampled sources; per the spec it trims "surrounding horizontal
whitespace" from the command region. -/
def trimBytes (l : Bytes) : Bytes :=
  ((l.dropWhile isHWS).reverse.dropWhile isHWS).reverse

/-- `AdminProtocol::parse_request` (admin.rs lines 33-72): find the first
CRLF (no CRLF is `WouldBlock`); trim the region before it; a region holding a
space is rejected (the multi-word match arm rejects every verb); otherwise
the trimmed region must be one of the four verbs, consuming up to and
including the CRLF. -/
def parse_request (buffer : Bytes) : ParseResult AdminRequest :=
  match findCRLF buffer with
  | none => .wouldBlock
  | some commandEnd =>
    let trimmed := trimBytes (buffer.take commandEnd)
    match findSpace trimmed with
    | some _ => .invalid
    | none =>
      if trimmed = ascii "flush_all" then .ok .flushAll (commandEnd + 2)
      else if trimmed = ascii "stats" then .ok .stats (commandEnd + 2)
      else if trimmed = ascii "quit" then .ok .quit (commandEnd + 2)
      else if trimmed = ascii "version" then .ok .version (commandEnd + 2)
      else .invalid

/-- `AdminProtocol::compose_request` (admin.rs lines 74-89): the bytes put
into the buffer; the returned size is their length. -/
def compose_request : AdminRequest → Bytes
  | .flushAll => ascii "flush_all\r\n"
  | .stats => ascii "stats\r\n"
  | .version => ascii "version\r\n"
  | .quit => ascii "quit\r\n"

/-- One metric of the metriken registry as consumed by `memcache_stats`:
counters and gauges carry one value, histograms carry their percentile
snapshot `(label, value)` pairs, and `other` stands for metrics whose
`as_any()` is `None` or which downcast to none of the three types.  The
registry itself is an external collaborator (out of the spec's scope), so
only this interface is modelled. -/
inductive MetricKind where
  | counter (value : Nat)
  | gauge (value : Int)
  | histogram (percentiles : List (String × Nat))
  | other
  deriving DecidableEq, Repr

/-- The metrics registry: named metrics in registration order. -/
abbrev Registry := List (String × MetricKind)

/-- The lines pushed into `data` for one metric (admin.rs lines 171-190):
`format!("STAT {} {}\r\n", name, value)` for counters and gauges, and
`format!("STAT {}_{} {}\r\n", name, label, value)` per histogram
percentile. -/
def metricLines : String × MetricKind → List Bytes
  | (name, .counter v) => [ascii ("STAT " ++ name ++ " " ++ toString v ++ "\r\n")]
  | (name, .gauge v) => [ascii ("STAT " ++ name ++ " " ++ toString v ++ "\r\n")]
  | (name, .histogram ps) =>
    ps.map fun lv => ascii ("STAT " ++ name ++ "_" ++ lv.1 ++ " " ++ toString lv.2 ++ "\r\n")
  | (_, .other) => []

/-- All `STAT` lines of the registry in registry order (the `data` vector
before sorting). -/
def statLines (reg : Registry) : List Bytes := reg.flatMap metricLines

/-- `memcache_stats` (admin.rs lines 166-194): collect the lines, `sort`, and
return `data.join("\r\n") + "END\r\n"`.  `Vec::sort` on byte strings is the
lexicographic order; `insertionSort` gives the same value since the sorted
permutation of a list is unique under a total order.  `join` intersperses
its separator between entries, which is `List.intercalate`. -/
def memcache_stats (reg : Registry) : Bytes :=
  List.intercalate crlf (List.insertionSort (· ≤ ·) (statLines reg)) ++ ascii "END\r\n"

/-- Body shape asserted by claim C1, following the claim's words: one
CRLF-terminated `STAT` line per metric in sorted order with no other bytes
between the lines, followed immediately by `END\r\n`. -/
def c1ClaimedBody (reg : Registry) : Bytes :=
  (List.insertionSort (· ≤ ·) (statLines reg)).flatten ++ ascii "END\r\n"

/-- `Version` response payload (admin.rs lines 109-121). -/
structure AdminVersion where
  version : String
  deriving DecidableEq, Repr

/-- `AdminResponse` (admin.rs lines 123-128). -/
inductive AdminResponse where
  | hangup
  | ok
  | stats
  | version (v : AdminVersion)
  deriving DecidableEq, Repr

/-- Bytes written by `impl Compose for AdminResponse` (admin.rs lines
148-164); `Stats` writes the `memcache_stats` rendering of the registry. -/
def AdminResponse.composeBytes (reg : Registry) : AdminResponse → Bytes
  | .hangup => []
  | .ok => ascii "OK\r\n"
  | .stats => memcache_stats reg
  | .version v => ascii "VERSION " ++ ascii v.version ++ crlf

/-- Outcome of running a Rust function: a normal return or a panic. -/
inductive Outcome (α : Type) where
  | ok (val : α)
  | panicked
  deriving DecidableEq, Repr

/-- `AdminProtocol::parse_response` (admin.rs lines 91-97): the body is
`todo!("this is not implemented yet")`, which unconditionally panics. -/
def parse_response (_request : AdminRequest) (_buffer : Bytes) :
    Outcome (ParseResult AdminResponse) := .panicked

/-- A complete admin request: a byte string that parses successfully with the
whole input consumed. -/
def ValidRequest (b : Bytes) : Prop := ∃ r, parse_request b = .ok r b.length

/-- The byte string contains a CRLF pair somewhere. -/
def hasCRLF (l : Bytes) : Prop := ∃ p q, l = p ++ 13 :: 10 :: q

/-- `CLIENT_ERROR` response (client_error.rs lines 12-15); `inner` is the
message bytes. -/
structure ClientError where
  inner : Bytes
  deriving DecidableEq, Repr

/-- `MSG_PREFIX` (client_error.rs line 10): the 13 bytes of
`"CLIENT_ERROR "`. -/
def MSG_PREFIX : Bytes := ascii "CLIENT_ERROR "

/-- `ClientError::is_empty` (client_error.rs lines 18-20): always `false`. -/
def ClientError.is_empty (_ : ClientError) : Bool := false

/-- `ClientError::len` (client_error.rs lines 22-24). -/
def ClientError.len (e : ClientError) : Nat := MSG_PREFIX.length + e.inner.length + 2

/-- Bytes written by `impl Compose for ClientError` (client_error.rs lines
36-48): the prefix, the message, then CRLF. -/
def ClientError.composed (e : ClientError) : Bytes := MSG_PREFIX ++ e.inner ++ crlf

/-- Size value returned by `ClientError::compose` (client_error.rs line 40):
`MSG_PREFIX.len() + msg.len() + CRLF.len()`. -/
def ClientError.composeSize (e : ClientError) : Nat :=
  MSG_PREFIX.length + e.inner.length + crlf.length

/-- RESP `Message` shapes relevant to zrem.rs: nullable bulk strings,
nullable arrays, and `integer` standing in for every other message type. -/
inductive Message where
  | bulk (inner : Option Bytes)
  | array (inner : Option (List Message))
  | integer (value : Int)

/-- Modelled from the spec: `take_bulk_string` (defined outside the sampled
sources) pops the first array element; an exhausted array or a null bulk
string gives `none` (the caller's `ok_or_else` on the key position shows the
null case is a `None`, not an error), a non-null bulk string gives its bytes,
and any other element type is a structural mismatch. -/
def take_bulk_string : List Message → Except String (Option Bytes × List Message)
  | [] => .ok (none, [])
  | .bulk s :: rest => .ok (s, rest)
  | _ => .error "malformed command"

/-- `SortedSetRemove` (zrem.rs lines 16-20). -/
structure SortedSetRemove where
  key : Bytes
  members : List Bytes
  deriving DecidableEq, Repr

/-- The member-collection loop of `TryFrom<Message> for SortedSetRemove`
(zrem.rs lines 45-52): `while let Some(member) = take_bulk_string(&mut
array)?`, rejecting empty members.  `take_bulk_string` is inlined into the
patterns so the recursion is structural; the cases match its three arms. -/
def collectMembers : List Message → Except String (List Bytes)
  | [] => .ok []
  | .bulk none :: _ => .ok []
  | .bulk (some m) :: rest =>
    if m = [] then .error "malformed command"
    else (collectMembers rest).map (m :: ·)
  | _ => .error "malformed command"

/-- `impl TryFrom<Message> for SortedSetRemove` (zrem.rs lines 22-56). -/
def SortedSetRemove.try_from (msg : Message) : Except String SortedSetRemove :=
  match msg with
  | .array (some l) =>
    if l.length < 3 then .error "malformed command"
    else
      match take_bulk_string l with
      | .error e => .error e
      | .ok (_command, l1) =>
        match take_bulk_string l1 with
        | .error e => .error e
        | .ok (none, _) => .error "malformed command"
        | .ok (some key, l2) =>
          match collectMembers l2 with
          | .error e => .error e
          | .ok members => .ok ⟨key, members⟩
  | _ => .error "malformed command"

/-- `impl From<&SortedSetRemove> for Message` (zrem.rs lines 75-93): a
three-element array whose last element is a nested `Array` of the member bulk
strings, exactly as in the source. -/
def SortedSetRemove.toMessage (v : SortedSetRemove) : Message :=
  .array (some [
    .bulk (some (ascii "ZREM")),
    .bulk (some v.key),
    .array (some (v.members.map fun m => .bulk (some m)))])

/-- Specification of the member positions accepted by the collection loop:
elements are consumed in order; a null bulk string stops collection with the
members gathered so far. -/
inductive MembersSpec : List Message → List Bytes → Prop where
  | nil : MembersSpec [] []
  | stop (rest : List Message) : MembersSpec (Message.bulk none :: rest) []
  | cons (m : Bytes) (rest : List Message) (out : List Bytes) :
      m ≠ [] → MembersSpec rest out →
      MembersSpec (Message.bulk (some m) :: rest) (m :: out)

/-- Sessions are opaque identifiers: the worker moves them between the slot
table and the queues without inspecting them. -/
abbrev Sess := Nat

/-- `Token`: a slot index within one worker. -/
abbrev Token := Nat

/-- `Signal` variants delivered on the signal queue. -/
inductive Signal where
  | flushAll
  | shutdown
  deriving DecidableEq, Repr

/-- Modelled from the spec: one direction of a bounded `Queues` channel
together with its attached waker flag; `try_send` returns `false` (`Full`) on
overflow and leaves the channel unchanged. -/
structure Channel (α : Type) where
  msgs : List α
  capacity : Nat
  woken : Bool
  deriving DecidableEq, Repr

/-- A channel holding `msgs` with the given capacity and an unrung waker. -/
def mkChan {α : Type} (msgs : List α) (capacity : Nat) : Channel α :=
  { msgs := msgs, capacity := capacity, woken := false }

/-- `try_send` / `try_send_any` / `try_send_to`: non-blocking bounded send. -/
def Channel.trySend {α : Type} (c : Channel α) (m : α) : Bool × Channel α :=
  if c.msgs.length < c.capacity then (true, { c with msgs := c.msgs ++ [m] })
  else (false, c)

/-- `try_recv`: pop at most one message. -/
def Channel.tryRecv {α : Type} (c : Channel α) : Option α × Channel α :=
  match c.msgs with
  | [] => (none, c)
  | m :: rest => (some m, { c with msgs := rest })

/-- `try_recv_all`: drain every pending message. -/
def Channel.recvAll {α : Type} (c : Channel α) : List α × Channel α :=
  (c.msgs, { c with msgs := [] })

/-- `wake`: ring the consumer's waker. -/
def Channel.wake {α : Type} (c : Channel α) : Channel α := { c with woken := true }

/-- Requests moving through the worker are opaque identifiers. -/
abbrev WReq := Nat

/-- A response as the worker sees it: an identity plus `should_hangup`. -/
structure WResp where
  id : Nat
  hangup : Bool
  deriving DecidableEq, Repr

/-- The `MultiWorker` state visible to the modelled operations: the slot
table (`Slab`), the worker's side of the session, data, and signal queues,
and the local waker flag.  The OS poll registry is outside the model;
`register`/`reregister` outcomes enter through oracles and `deregister` has
no modelled effect. -/
structure Worker where
  sessions : List (Option Sess)
  sessionInc : Channel Sess
  sessionOut : Channel Sess
  dataOut : Channel (WReq × Token)
  dataInc : Channel (WReq × WResp × Token)
  signalInc : Channel Signal
  localWakerWoken : Bool
  deriving DecidableEq, Repr

/-- Slot lookup: `self.sessions.get(token.0)` (`contains` is `isSome`). -/
def Worker.getSlot (w : Worker) (t : Token) : Option Sess := w.sessions.getD t none

/-- Lowest vacant slab index (`Slab::vacant_entry().key()`). -/
def vacantKey (ss : List (Option Sess)) : Nat := (ss.findIdx? (·.isNone)).getD ss.length

/-- Install a session at a slab key, growing the table when the key is
fresh. -/
def insertSlot (ss : List (Option Sess)) (k : Nat) (s : Sess) : List (Option Sess) :=
  if k < ss.length then ss.set k (some s) else ss ++ [some s]

/-- `MultiWorker::close` (multi.rs lines 82-89): when the token is occupied,
remove the session, deregister it (an OS-registry effect outside the state),
`try_send_any` it toward the listener with the result discarded, and wake the
session queue. -/
def Worker.close (w : Worker) (t : Token) : Worker :=
  match w.getSlot t with
  | none => w
  | some sess =>
    { w with sessions := w.sessions.set t none,
             sessionOut := (w.sessionOut.trySend sess).2.wake }

/-- Outcome of `session.fill()`. -/
inductive FillRes where
  | ok (n : Nat)
  | wouldBlock
  | err
  deriving DecidableEq, Repr, Inhabited

/-- Outcome of `session.receive()`. -/
inductive RecvRes where
  | ok (r : WReq)
  | wouldBlock
  | err
  deriving DecidableEq, Repr, Inhabited

/-- Modelled from the spec: `map_result` (core/server, outside the sampled
sources) treats `WouldBlock` from socket I/O as a non-error, a zero-length
read as EOF (an error), and any other socket error as an error. -/
def fillIsError : FillRes → Bool
  | .ok 0 => true
  | .ok _ => false
  | .wouldBlock => false
  | .err => true

/-- Oracle for one `read` call: what the socket and codec would produce. -/
structure ReadOracle where
  fill : FillRes
  recv : RecvRes
  deriving DecidableEq, Repr, Inhabited

/-- `MultiWorker::read` (multi.rs lines 92-109): look up the slot, fill the
session, then attempt one `receive`; a parsed request goes to the storage
side of the data queue via `try_send_to(0, ..)` and a full queue is an error
with nothing enqueued; the codec's `WouldBlock` becomes `Ok(())` through
`map_err`.  The `Bool` is `true` for `Ok(())`. -/
def Worker.read (w : Worker) (t : Token) (ro : ReadOracle) : Bool × Worker :=
  match w.getSlot t with
  | none => (false, w)
  | some _ =>
    if fillIsError ro.fill then (false, w)
    else
      match ro.recv with
      | .ok request =>
        ((w.dataOut.trySend (request, t)).1,
         { w with dataOut := (w.dataOut.trySend (request, t)).2 })
      | .wouldBlock => (true, w)
      | .err => (false, w)

/-- Outcome of `session.flush()`. -/
inductive FlushRes where
  | ok
  | wouldBlock
  | err
  deriving DecidableEq, Repr, Inhabited

/-- `MultiWorker::write` (multi.rs lines 112-122): flush the session;
`WouldBlock` is success through `map_err`. -/
def Worker.write (w : Worker) (t : Token) (f : FlushRes) : Bool × Worker :=
  match w.getSlot t with
  | none => (false, w)
  | some _ =>
    match f with
    | .ok => (true, w)
    | .wouldBlock => (true, w)
    | .err => (false, w)

/-- Oracle for one socket event: flush and read outcomes. -/
structure SessOracle where
  flush : FlushRes
  readO : ReadOracle
  deriving DecidableEq, Repr, Inhabited

/-- The readable arm of the event loop (multi.rs lines 247-254): read and
close on error. -/
def Worker.handleReadable (w : Worker) (t : Token) (ro : ReadOracle) : Worker :=
  if (w.read t ro).1 then (w.read t ro).2 else (w.read t ro).2.close t

/-- The non-waker arm of the event loop (multi.rs lines 230-255): an error
event closes; a writable event flushes, closing on failure and skipping the
readable arm; a readable event reads, closing on failure. -/
def Worker.handleSock (w : Worker) (t : Token) (isErr isWr isRd : Bool)
    (so : SessOracle) : Worker :=
  if isErr then w.close t
  else if isWr then
    if (w.write t so.flush).1 then
      if isRd then (w.write t so.flush).2.handleReadable t so.readO
      else (w.write t so.flush).2
    else (w.write t so.flush).2.close t
  else if isRd then w.handleReadable t so.readO
  else w

/-- New-session intake of the waker branch (multi.rs lines 153-170): take at
most one session from the listener; allocate a vacant slot; a successful
registration (an OS outcome, the `regOk` oracle) installs it, a failed one
sends it back with `try_send_any` (result discarded, and the session queue's
waker is not rung on this path); either way the local waker re-arms. -/
def Worker.intake (w : Worker) (regOk : Bool) : Worker :=
  match w.sessionInc.msgs with
  | [] => w
  | sess :: rest =>
    let w' := { w with sessionInc := { w.sessionInc with msgs := rest } }
    if regOk then
      { w' with sessions := insertSlot w'.sessions (vacantKey w'.sessions) sess,
                localWakerWoken := true }
    else
      { w' with sessionOut := (w'.sessionOut.trySend sess).2,
                localWakerWoken := true }

/-- Oracle for one drained data-queue message: the session-buffer quantities
and I/O outcomes observed while staging the response. -/
structure MsgOracle where
  sendOk : Bool
  pendingAfterSend : Nat
  flush : FlushRes
  pendingAfterFlush : Nat
  reregOk : Bool
  remaining : Nat
  readO : ReadOracle
  deriving DecidableEq, Repr, Inhabited

/-- The trailing pipelined-read step of one drained message (multi.rs lines
209-212): if unparsed inbound bytes remain, read and close on error. -/
def Worker.finishMsg (w : Worker) (t : Token) (mo : MsgOracle) : Worker :=
  if mo.remaining > 0 then w.handleReadable t mo.readO else w

/-- Processing one `(request, response, token)` message from the data queue
(multi.rs lines 174-213): an absent slot drops silently; `should_hangup`
stages the response then closes; a failed send closes; pending outbound bytes
trigger an immediate flush (a hard failure closes) and, if bytes still
remain, a re-registration (failure closes); finally the pipelined read runs
when unparsed inbound bytes remain. -/
def Worker.handleMsg (w : Worker) (m : WReq × WResp × Token) (mo : MsgOracle) : Worker :=
  let t := m.2.2
  let resp := m.2.1
  match w.getSlot t with
  | none => w
  | some _ =>
    if resp.hangup then w.close t
    else if !mo.sendOk then w.close t
    else if mo.pendingAfterSend > 0 then
      if mo.flush = .err then w.close t
      else if mo.pendingAfterFlush > 0 then
        if mo.reregOk then w.finishMsg t mo else w.close t
      else w.finishMsg t mo
    else w.finishMsg t mo

/-- The response drain over the drained message list (multi.rs lines
173-214). -/
def Worker.drainMessages : Worker → List (WReq × WResp × Token) → List MsgOracle → Worker
  | w, [], _ => w
  | w, m :: ms, mos => (w.handleMsg m (mos.headD default)).drainMessages ms mos.tail

/-- The signal drain (multi.rs lines 216-228) over the queued signals: pop
until the queue is empty or a `Shutdown` is seen; `FlushAll` does nothing.
Gives whether a `Shutdown` was popped, and the remaining queue contents. -/
def drainSignals : List Signal → Bool × List Signal
  | [] => (false, [])
  | .flushAll :: rest => drainSignals rest
  | .shutdown :: rest => (true, rest)

/-- Outcome of one step of the event loop: keep looping, or return from
`run`. -/
inductive StepOut where
  | next (w : Worker)
  | halt (w : Worker)
  deriving DecidableEq, Repr

/-- The signal-drain step applied to the worker state: a popped `Shutdown`
returns from `run`. -/
def Worker.signalStep (w : Worker) : StepOut :=
  let w' := { w with signalInc := { w.signalInc with msgs := (drainSignals w.signalInc.msgs).2 } }
  if (drainSignals w.signalInc.msgs).1 then .halt w' else .next w'

/-- Oracle for one visit of the waker branch. -/
structure WakerOracle where
  regOk : Bool
  msgO : List MsgOracle
  deriving DecidableEq, Repr, Inhabited

/-- The waker branch (multi.rs lines 151-229): reset the local waker, take at
most one new session, drain and process every pending data-queue message,
then drain the signal queue. -/
def Worker.wakerBranch (w : Worker) (wo : WakerOracle) : StepOut :=
  let w1 := ({ w with localWakerWoken := false }).intake wo.regOk
  let w2 := { w1 with dataInc := (w1.dataInc.recvAll).2 }
  let w3 := w2.drainMessages (w1.dataInc.recvAll).1 wo.msgO
  w3.signalStep

/-- One polled event together with its oracle. -/
inductive Event where
  | waker (wo : WakerOracle)
  | sock (t : Token) (isErr isWr isRd : Bool) (so : SessOracle)
  deriving DecidableEq, Repr

/-- The event-processing for-loop of `MultiWorker::run` (multi.rs lines
148-257): events are processed in order; a `Shutdown` seen in the waker
branch makes `run` return immediately, leaving the remaining events of the
batch unprocessed.  The `Bool` is `true` exactly when `run` returned. -/
def Worker.processEvents : Worker → List Event → Worker × Bool
  | w, [] => (w, false)
  | w, .waker wo :: rest =>
    match w.wakerBranch wo with
    | .halt w' => (w', true)
    | .next w' => w'.processEvents rest
  | w, .sock t e wr rd so :: rest => (w.handleSock t e wr rd so).processEvents rest

/-- Registry used in the counterexample to claim C1: two counters. -/
def c1Reg : Registry := [("a", .counter 1), ("b", .counter 2)]

/-- Failing input of claim C2: `SortedSetRemove::new(b"z", &[b"a"])`. -/
def c2Zrem : SortedSetRemove := ⟨ascii "z", [ascii "a"]⟩

/-- Message used in the counterexample to claim C5: a well-formed command and
key followed by a null bulk-string member. -/
def c5Msg : Message :=
  .array (some [.bulk (some (ascii "ZREM")), .bulk (some (ascii "k")), .bulk none])

/-- Worker whose outbound session queue is full (capacity 1, one message
queued) while slot 0 holds session 7: the counterexample state for C3. -/
def c3WFull : Worker :=
  { sessions := [some 7], sessionInc := mkChan [] 4, sessionOut := mkChan [5] 1,
    dataOut := mkChan [] 4, dataInc := mkChan [] 4, signalInc := mkChan [] 4,
    localWakerWoken := false }

/-- Worker with spare outbound session-queue capacity and slot 0 holding
session 7: the witness state for C3. -/
def c3WOk : Worker :=
  { sessions := [some 7], sessionInc := mkChan [] 4, sessionOut := mkChan [] 4,
    dataOut := mkChan [] 4, dataInc := mkChan [] 4, signalInc := mkChan [] 4,
    localWakerWoken := false }

/-- Worker whose data queue is full (capacity 1, one message queued) while
slot 0 holds session 7: the witness state for C6. -/
def c6W : Worker :=
  { sessions := [some 7], sessionInc := mkChan [] 4, sessionOut := mkChan [] 4,
    dataOut := mkChan [(0, 0)] 1, dataInc := mkChan [] 4, signalInc := mkChan [] 4,
    localWakerWoken := false }

/-- Read oracle for the C6 witness: a successful fill and one parsed
request. -/
def c6RO : ReadOracle := { fill := .ok 1, recv := .ok 9 }

/-- Worker with a `FlushAll` then a `Shutdown` queued on the signal queue:
the witness state for C7. -/
def c7W : Worker :=
  { sessions := [some 7], sessionInc := mkChan [] 4, sessionOut := mkChan [] 4,
    dataOut := mkChan [] 4, dataInc := mkChan [] 4,
    signalInc := mkChan [.flushAll, .shutdown] 4, localWakerWoken := false }

/-- Worker with only a `FlushAll` queued: the second witness state for C7. -/
def c7WFlush : Worker :=
  { sessions := [some 7], sessionInc := mkChan [] 4, sessionOut := mkChan [] 4,
    dataOut := mkChan [] 4, dataInc := mkChan [] 4,
    signalInc := mkChan [.flushAll] 4, localWakerWoken := false }

/-- A pending socket event used to show the batch remainder is skipped. -/
def c7Ev : Event := .sock 0 false false true default

/-- Claim C8 (confirmed): `AdminProtocol::parse_response` never returns a
value for any request and input; its `todo!` body unconditionally panics. -/
theorem C8_parse_response_panics :
    ∀ (req : AdminRequest) (buffer : Bytes) (r : ParseResult AdminResponse),
      parse_response req buffer ≠ Outcome.ok r :=
  fun _ _ _ h => Outcome.noConfusion h

/-- Claim C9 (confirmed): `ClientError::is_empty` is `false` for every value,
the empty message included, and `compose` writes exactly `len()` bytes:
the returned size equals the written byte count equals
`len() = 13 + message length + 2`. -/
theorem C9_client_error :
    ∀ e : ClientError,
      e.is_empty = false ∧
      e.composeSize = e.composed.length ∧
      e.composeSize = e.len ∧
      e.len = 13 + e.inner.length + 2 := by
  intro e
  refine ⟨rfl, ?_, rfl, ?_⟩
  · simp [ClientError.composed, ClientError.composeSize]
    omega
  · simp [ClientError.len, MSG_PREFIX, ascii]

/-- Claim C2 (code_bug): the admin half of the round-trip claim holds —
parsing the bytes composed from any `AdminRequest` gives the request back
with the whole input consumed — but the `SortedSetRemove` half fails on
every value: `From<&SortedSetRemove> for Message` wraps the members in a
nested array that `TryFrom<Message>` rejects, shown here at the failing
input `SortedSetRemove::new(b"z", &[b"a"])`. -/
theorem C2_round_trip :
    (∀ r : AdminRequest,
        parse_request (compose_request r) = .ok r (compose_request r).length)
    ∧ SortedSetRemove.try_from c2Zrem.toMessage = .error "malformed command" := by
  refine ⟨fun r => ?_, rfl⟩
  cases r <;> decide

/-- Counterexample to claim C1 as stated: with two registered counters the
`stats` body has an extra CRLF between the two `STAT` lines (a blank line on
the wire), so it is not the claimed tight concatenation of lines. -/
theorem C1_counterexample : memcache_stats c1Reg ≠ c1ClaimedBody c1Reg := by
  decide

/-- Counterexample to claim C5 as stated: a message whose member position
holds a null bulk string — not a non-empty bulk-string member — decodes
successfully (the null terminates the member loop), instead of returning the
error the claim requires. -/
theorem C5_counterexample :
    SortedSetRemove.try_from c5Msg = .ok ⟨ascii "k", []⟩ := rfl

/-- Counterexample to claim C3 as stated: with the outbound session queue
full, `close` removes session 7 from the slot table but the discarded
`try_send_any` result means the session never reaches the session queue —
it is dropped, not sent exactly once. -/
theorem C3_counterexample :
    c3WFull.getSlot 0 = some 7 ∧
    (c3WFull.close 0).sessions = [none] ∧
    (c3WFull.close 0).sessionOut.msgs = [5] ∧
    7 ∉ (c3WFull.close 0).sessionOut.msgs := by
  decide

/-- Sending on a channel with spare capacity appends the message. -/
theorem Channel.trySend_spare {α : Type} (c : Channel α) (m : α)
    (h : c.msgs.length < c.capacity) :
    c.trySend m = (true, { c with msgs := c.msgs ++ [m] }) := by
  simp [Channel.trySend, h]

/-- Sending on a full channel fails and leaves the channel unchanged. -/
theorem Channel.trySend_full {α : Type} (c : Channel α) (m : α)
    (h : c.capacity ≤ c.msgs.length) :
    c.trySend m = (false, c) := by
  simp [Channel.trySend, Nat.not_lt.mpr h]

/-- Clearing a slot empties it, whether or not the index is in range. -/
theorem getD_set_none : ∀ (l : List (Option Sess)) (t : Nat),
    (l.set t none).getD t none = none
  | [], _ => rfl
  | _ :: _, 0 => rfl
  | _ :: l, t + 1 => getD_set_none l t

/-- `close` on an occupied token with spare outbound capacity: the session
is appended to the session queue exactly once, the slot is cleared, and the
listener's waker is rung. -/
theorem close_spec (w : Worker) (t : Token) (s : Sess)
    (hs : w.getSlot t = some s)
    (hcap : w.sessionOut.msgs.length < w.sessionOut.capacity) :
    (w.close t).sessionOut.msgs = w.sessionOut.msgs ++ [s] ∧
    (w.close t).sessions = w.sessions.set t none ∧
    (w.close t).sessionOut.woken = true := by
  unfold Worker.close
  rw [hs]
  simp [Channel.trySend_spare _ _ hcap, Channel.wake]

/-- `close` never touches the data queue. -/
theorem close_dataOut (w : Worker) (t : Token) : (w.close t).dataOut = w.dataOut := by
  unfold Worker.close
  cases w.getSlot t <;> simp

/-- `read` with a successful fill, a parsed request, and a full data queue
returns the error with the worker (data queue included) unchanged. -/
theorem read_full (w : Worker) (t : Token) (s : Sess) (ro : ReadOracle) (req : WReq)
    (hs : w.getSlot t = some s)
    (hf : fillIsError ro.fill = false)
    (hr : ro.recv = .ok req)
    (hq : w.dataOut.capacity ≤ w.dataOut.msgs.length) :
    w.read t ro = (false, w) := by
  unfold Worker.read
  rw [hs]
  simp [hf, hr, Channel.trySend_full _ _ hq]

/-- A failing `read` makes the readable arm close the token. -/
theorem handleReadable_close (w : Worker) (t : Token) (ro : ReadOracle)
    (h : w.read t ro = (false, w)) :
    w.handleReadable t ro = w.close t := by
  unfold Worker.handleReadable
  rw [h]
  simp

/-- Claim C3 (corrected): when the outbound session queue is below capacity,
every session `close` removes from the slot table is sent to the session
queue exactly once and the listener's waker is rung, and a session whose
registration fails during intake is likewise returned; the counterexample
shows the session is dropped instead when that queue is full. -/
theorem C3_close_reclaim :
    (∀ (w : Worker) (t : Token) (s : Sess),
        w.getSlot t = some s →
        w.sessionOut.msgs.length < w.sessionOut.capacity →
        (w.close t).sessionOut.msgs = w.sessionOut.msgs ++ [s] ∧
        (w.close t).sessions = w.sessions.set t none ∧
        (w.close t).sessionOut.woken = true)
    ∧ (∀ (w : Worker) (s : Sess) (rest : List Sess),
        w.sessionInc.msgs = s :: rest →
        w.sessionOut.msgs.length < w.sessionOut.capacity →
        (w.intake false).sessionOut.msgs = w.sessionOut.msgs ++ [s]) := by
  refine ⟨close_spec, ?_⟩
  intro w s rest hinc hcap
  unfold Worker.intake
  rw [hinc]
  simp [Channel.trySend_spare _ _ hcap]

/-- Witness for C3: at the spare-capacity worker `c3WOk`, `close 0` puts
session 7 on the session queue once, clears the slot, and rings the waker. -/
theorem C3_close_reclaim_witness :
    (c3WOk.close 0).sessionOut.msgs = c3WOk.sessionOut.msgs ++ [7] ∧
    (c3WOk.close 0).sessions = c3WOk.sessions.set 0 none ∧
    (c3WOk.close 0).sessionOut.woken = true :=
  C3_close_reclaim.1 c3WOk 0 7 (by decide) (by decide)

/-- Claim C6 (confirmed): with the data queue full, a session whose
`receive` yields a parsed request makes `read` return an error with the data
queue unchanged (no request reaches storage); the run loop's readable arm
then invokes `close`, and — provided the outbound session queue has spare
capacity (cf. C3) — the session is handed back to the listener with its slot
cleared. -/
theorem C6_queue_full_shed :
    ∀ (w : Worker) (t : Token) (s : Sess) (ro : ReadOracle) (req : WReq),
      w.getSlot t = some s →
      fillIsError ro.fill = false →
      ro.recv = .ok req →
      w.dataOut.capacity ≤ w.dataOut.msgs.length →
      w.read t ro = (false, w) ∧
      w.handleReadable t ro = w.close t ∧
      (w.handleReadable t ro).dataOut = w.dataOut ∧
      (w.sessionOut.msgs.length < w.sessionOut.capacity →
        (w.handleReadable t ro).sessionOut.msgs = w.sessionOut.msgs ++ [s] ∧
        (w.handleReadable t ro).getSlot t = none) := by
  intro w t s ro req hs hf hr hq
  have hread := read_full w t s ro req hs hf hr hq
  have hclose := handleReadable_close w t ro hread
  refine ⟨hread, hclose, ?_, fun hcap => ?_⟩
  · rw [hclose]
    exact close_dataOut w t
  · obtain ⟨h1, h2, _⟩ := close_spec w t s hs hcap
    rw [hclose]
    refine ⟨h1, ?_⟩
    unfold Worker.getSlot
    rw [h2]
    exact getD_set_none _ _

/-- Witness for C6: the concrete full-data-queue worker `c6W` closes and
reclaims the session feeding it a request. -/
theorem C6_queue_full_shed_witness :
    c6W.read 0 c6RO = (false, c6W) ∧
    c6W.handleReadable 0 c6RO = c6W.close 0 ∧
    (c6W.handleReadable 0 c6RO).dataOut = c6W.dataOut ∧
    (c6W.sessionOut.msgs.length < c6W.sessionOut.capacity →
      (c6W.handleReadable 0 c6RO).sessionOut.msgs = c6W.sessionOut.msgs ++ [7] ∧
      (c6W.handleReadable 0 c6RO).getSlot 0 = none) :=
  C6_queue_full_shed c6W 0 7 c6RO 9 (by decide) (by decide) (by decide) (by decide)

/-- `close` never touches the signal queue. -/
theorem close_sigQ (w : Worker) (t : Token) : (w.close t).signalInc = w.signalInc := by
  unfold Worker.close
  cases w.getSlot t <;> simp

/-- `read` never touches the signal queue. -/
theorem read_sigQ (w : Worker) (t : Token) (ro : ReadOracle) :
    (w.read t ro).2.signalInc = w.signalInc := by
  unfold Worker.read
  cases w.getSlot t <;> cases ro.recv <;> split_ifs <;> simp

/-- The readable arm never touches the signal queue. -/
theorem handleReadable_sigQ (w : Worker) (t : Token) (ro : ReadOracle) :
    (w.handleReadable t ro).signalInc = w.signalInc := by
  unfold Worker.handleReadable
  split_ifs
  · exact read_sigQ w t ro
  · rw [close_sigQ]
    exact read_sigQ w t ro

/-- The pipelined-read tail of a message never touches the signal queue. -/
theorem finishMsg_sigQ (w : Worker) (t : Token) (mo : MsgOracle) :
    (w.finishMsg t mo).signalInc = w.signalInc := by
  unfold Worker.finishMsg
  split_ifs
  · exact handleReadable_sigQ w t mo.readO
  · rfl

/-- Processing one drained message never touches the signal queue. -/
theorem handleMsg_sigQ (w : Worker) (m : WReq × WResp × Token) (mo : MsgOracle) :
    (w.handleMsg m mo).signalInc = w.signalInc := by
  unfold Worker.handleMsg
  dsimp only
  rcases hslot : w.getSlot m.2.2 with _ | s
  · simp only [hslot]
  · simp only [hslot]
    split_ifs <;> simp [close_sigQ, finishMsg_sigQ]

/-- The whole response drain never touches the signal queue. -/
theorem drainMessages_sigQ :
    ∀ (ms : List (WReq × WResp × Token)) (w : Worker) (mos : List MsgOracle),
      (w.drainMessages ms mos).signalInc = w.signalInc
  | [], _, _ => rfl
  | m :: ms, w, mos =>
    (drainMessages_sigQ ms _ mos.tail).trans (handleMsg_sigQ w m (mos.headD default))

/-- Session intake never touches the signal queue. -/
theorem intake_sigQ (w : Worker) (b : Bool) : (w.intake b).signalInc = w.signalInc := by
  unfold Worker.intake
  cases w.sessionInc.msgs <;> cases b <;> simp

/-- A queued `Shutdown` is seen by the signal drain. -/
theorem drainSignals_shutdown (sigs : List Signal) (h : Signal.shutdown ∈ sigs) :
    (drainSignals sigs).1 = true := by
  induction sigs with
  | nil => cases h
  | cons a rest ih =>
    cases a
    · exact ih (by simpa using h)
    · rfl

/-- Without a queued `Shutdown` the drain empties the queue and continues. -/
theorem drainSignals_no_shutdown (sigs : List Signal) (h : Signal.shutdown ∉ sigs) :
    drainSignals sigs = (false, []) := by
  induction sigs with
  | nil => rfl
  | cons a rest ih =>
    cases a
    · exact ih fun hm => h (List.mem_cons_of_mem _ hm)
    · exact absurd (List.mem_cons_self _ _) h

/-- With a queued `Shutdown` the signal step halts the run loop. -/
theorem signalStep_halt (w : Worker) (h : Signal.shutdown ∈ w.signalInc.msgs) :
    w.signalStep =
      .halt { w with signalInc := { w.signalInc with msgs := (drainSignals w.signalInc.msgs).2 } } := by
  unfold Worker.signalStep
  simp [drainSignals_shutdown _ h]

/-- With a queued `Shutdown`, the waker branch halts whatever the intake and
response-drain oracles produce. -/
theorem wakerBranch_halt (w : Worker) (wo : WakerOracle)
    (h : Signal.shutdown ∈ w.signalInc.msgs) :
    ∃ w', w.wakerBranch wo = .halt w' := by
  unfold Worker.wakerBranch
  refine ⟨_, signalStep_halt _ ?_⟩
  dsimp only
  rw [drainMessages_sigQ]
  dsimp only
  rw [intake_sigQ]
  exact h

/-- Claim C7 (confirmed): a `Shutdown` on the signal queue makes the waker
branch return from `run` at once, so the remaining events of the poll batch
are never processed (the result does not depend on them); a `FlushAll`-only
signal queue leaves the slot table, the sessions, and the data and session
queues untouched — the drain merely consumes the queued signals. -/
theorem C7_shutdown_flushall :
    (∀ (w : Worker) (wo : WakerOracle) (rest rest' : List Event),
        Signal.shutdown ∈ w.signalInc.msgs →
        (w.processEvents (.waker wo :: rest)).2 = true ∧
        w.processEvents (.waker wo :: rest) = w.processEvents (.waker wo :: rest'))
    ∧ (∀ w : Worker,
        Signal.shutdown ∉ w.signalInc.msgs →
        ∃ w', w.signalStep = .next w' ∧ w'.sessions = w.sessions ∧
          w'.sessionInc = w.sessionInc ∧ w'.sessionOut = w.sessionOut ∧
          w'.dataOut = w.dataOut ∧ w'.dataInc = w.dataInc ∧
          w'.signalInc.msgs = [] ∧ w'.localWakerWoken = w.localWakerWoken) := by
  constructor
  · intro w wo rest rest' h
    obtain ⟨w', hw⟩ := wakerBranch_halt w wo h
    refine ⟨?_, ?_⟩
    · simp [Worker.processEvents, hw]
    · simp [Worker.processEvents, hw]
  · intro w h
    refine ⟨{ w with signalInc := { w.signalInc with msgs := [] } },
      ?_, rfl, rfl, rfl, rfl, rfl, rfl, rfl⟩
    unfold Worker.signalStep
    simp [drainSignals_no_shutdown _ h]

/-- Witness for C7: the worker `c7W` (a `FlushAll` then a `Shutdown` queued)
returns from its batch at the waker event independently of the pending
socket event, and the worker `c7WFlush` (only a `FlushAll` queued) continues
with its state unchanged apart from the consumed signal. -/
theorem C7_shutdown_flushall_witness :
    ((c7W.processEvents [.waker default, c7Ev]).2 = true ∧
      c7W.processEvents [.waker default, c7Ev] = c7W.processEvents [.waker default]) ∧
    ∃ w', c7WFlush.signalStep = .next w' ∧ w'.sessions = c7WFlush.sessions ∧
      w'.sessionInc = c7WFlush.sessionInc ∧ w'.sessionOut = c7WFlush.sessionOut ∧
      w'.dataOut = c7WFlush.dataOut ∧ w'.dataInc = c7WFlush.dataInc ∧
      w'.signalInc.msgs = [] ∧ w'.localWakerWoken = c7WFlush.localWakerWoken :=
  ⟨C7_shutdown_flushall.1 c7W default [c7Ev] [] (by decide),
   C7_shutdown_flushall.2 c7WFlush (by decide)⟩

/-- The collection loop succeeds exactly on the member shapes of
`MembersSpec`, producing the accepted members in order. -/
theorem collectMembers_ok_iff :
    ∀ (ms : List Message) (out : List Bytes),
      collectMembers ms = .ok out ↔ MembersSpec ms out := by
  intro ms
  induction ms with
  | nil =>
    intro out
    constructor
    · intro h
      cases h
      exact MembersSpec.nil
    · intro h
      cases h
      rfl
  | cons e rest ih =>
    intro out
    cases e with
    | bulk s =>
      cases s with
      | none =>
        constructor
        · intro h
          cases h
          exact MembersSpec.stop rest
        · intro h
          cases h
          rfl
      | some m =>
        by_cases hm : m = []
        · subst hm
          constructor
          · intro h
            exact absurd h (by simp [collectMembers])
          · intro h
            cases h with
            | cons _ _ _ hne => exact absurd rfl hne
        · constructor
          · intro h
            simp only [collectMembers, if_neg hm] at h
            cases hc : collectMembers rest with
            | error e => rw [hc] at h; cases h
            | ok out' =>
              rw [hc] at h
              cases h
              exact MembersSpec.cons m rest out' hm ((ih out').mp hc)
          · intro h
            cases h with
            | cons _ _ out' hne hs =>
              simp only [collectMembers, if_neg hm]
              rw [(ih out').mpr hs]
              rfl
    | array a =>
      constructor
      · intro h
        cases h
      · intro h
        cases h
    | integer n =>
      constructor
      · intro h
        cases h
      · intro h
        cases h

/-- Claim C5 (corrected): decoding a `SortedSetRemove` succeeds exactly when
the message is a non-null array of length at least 3 whose first element is a
bulk string (the command slot, possibly null), whose second element is a
non-null bulk-string key, and whose remaining elements are accepted by the
member loop — which on a null bulk string stops *successfully* with the
members collected so far (elements after it are ignored), instead of
returning the error the claim requires; empty members and non-bulk-string
members do error, and the decoded members are the accepted slots in order. -/
theorem C5_try_from_iff :
    ∀ (msg : Message) (v : SortedSetRemove),
      SortedSetRemove.try_from msg = .ok v ↔
      ∃ (cmd : Option Bytes) (ms : List Message),
        msg = .array (some (.bulk cmd :: .bulk (some v.key) :: ms)) ∧
        ms ≠ [] ∧ MembersSpec ms v.members := by
  intro msg v
  constructor
  · intro h
    cases msg with
    | bulk s => exact absurd h (by simp [SortedSetRemove.try_from])
    | integer n => exact absurd h (by simp [SortedSetRemove.try_from])
    | array a =>
      cases a with
      | none => exact absurd h (by simp [SortedSetRemove.try_from])
      | some l =>
        rcases l with _ | ⟨e1, l1⟩
        · exact absurd h (by simp [SortedSetRemove.try_from])
        rcases e1 with s | a1 | n1
        rotate_left
        · exact absurd h (by simp [SortedSetRemove.try_from, take_bulk_string])
        · exact absurd h (by simp [SortedSetRemove.try_from, take_bulk_string])
        rcases l1 with _ | ⟨e2, l2⟩
        · exact absurd h (by simp [SortedSetRemove.try_from, take_bulk_string])
        rcases e2 with s2 | a2 | n2
        rotate_left
        · exact absurd h (by simp [SortedSetRemove.try_from, take_bulk_string])
        · exact absurd h (by simp [SortedSetRemove.try_from, take_bulk_string])
        rcases s2 with _ | k
        · exact absurd h (by simp [SortedSetRemove.try_from, take_bulk_string])
        rcases l2 with _ | ⟨e3, l3⟩
        · exact absurd h (by simp [SortedSetRemove.try_from, take_bulk_string])
        simp only [SortedSetRemove.try_from, take_bulk_string] at h
        rw [if_neg (by simp)] at h
        cases hc : collectMembers (e3 :: l3) with
        | error e => rw [hc] at h; cases h
        | ok mems =>
          rw [hc] at h
          cases h
          exact ⟨s, e3 :: l3, rfl, by simp,
            (collectMembers_ok_iff (e3 :: l3) mems).mp hc⟩
  · rintro ⟨cmd, ms, rfl, hne, hspec⟩
    rcases ms with _ | ⟨e3, l3⟩
    · exact absurd rfl hne
    simp only [SortedSetRemove.try_from, take_bulk_string]
    rw [if_neg (by simp)]
    rw [(collectMembers_ok_iff (e3 :: l3) v.members).mpr hspec]

/-- Claim C1 (corrected): the `stats` body is made of the registry's `STAT`
lines in sorted order followed by `END\r\n`, but `join("\r\n")` over lines
that already end in CRLF puts an extra CRLF between consecutive lines (a
blank line on the wire), not the tight concatenation the claim states: the
body is the CRLF-interspersion of the sorted lines plus `END\r\n`. -/
theorem C1_stats_body :
    ∀ reg : Registry, ∃ L : List Bytes,
      L.Sorted (· ≤ ·) ∧ L.Perm (statLines reg) ∧
      memcache_stats reg = List.intercalate crlf L ++ ascii "END\r\n" :=
  fun reg =>
    ⟨List.insertionSort (· ≤ ·) (statLines reg),
     List.sorted_insertionSort _ _, List.perm_insertionSort _ _, rfl⟩

/-- A found CRLF position leaves room for the two CRLF bytes. -/
theorem findCRLF_le : ∀ (l : Bytes) (j : Nat), findCRLF l = some j → j + 2 ≤ l.length := by
  intro l
  induction l with
  | nil => intro j h; cases h
  | cons a t ih =>
    intro j h
    cases t with
    | nil => cases h
    | cons b rest =>
      rw [findCRLF] at h
      split_ifs at h with hab
      · cases h
        simp
      · simp only [Option.map_eq_some'] at h
        obtain ⟨j', hj', rfl⟩ := h
        have := ih j' hj'
        simp only [List.length_cons] at *
        omega

/-- `findCRLF` returns `some` exactly when the bytes contain a CRLF pair. -/
theorem findCRLF_isSome_iff : ∀ l : Bytes, (findCRLF l).isSome ↔ hasCRLF l := by
  intro l
  induction l with
  | nil =>
    simp only [findCRLF, Option.isSome_none, hasCRLF]
    constructor
    · intro h
      cases h
    · rintro ⟨p, q, hpq⟩
      exact absurd hpq.symm (List.append_ne_nil_of_right_ne_nil p (by simp))
  | cons a t ih =>
    cases t with
    | nil =>
      simp only [findCRLF, Option.isSome_none, hasCRLF]
      constructor
      · intro h
        cases h
      · rintro ⟨p, q, hpq⟩
        have := congrArg List.length hpq
        simp at this
        omega
    | cons b rest =>
      rw [findCRLF]
      split_ifs with hab
      · obtain ⟨h13, h10⟩ := hab
        subst h13
        subst h10
        simp only [Option.isSome_some, true_iff]
        exact ⟨[], rest, rfl⟩
      · rw [Option.isSome_map']
        rw [ih]
        unfold hasCRLF
        constructor
        · rintro ⟨p, q, hpq⟩
          exact ⟨a :: p, q, by rw [List.cons_append, ← hpq]⟩
        · rintro ⟨p, q, hpq⟩
          cases p with
          | nil =>
            simp only [List.nil_append, List.cons.injEq] at hpq
            exact absurd ⟨hpq.1, hpq.2.1⟩ hab
          | cons x p' =>
            simp only [List.cons_append, List.cons.injEq] at hpq
            exact ⟨p', q, hpq.2⟩

/-- The first CRLF of an extension appears no later than the first CRLF of
the original bytes. -/
theorem findCRLF_append : ∀ (p : Bytes) (j : Nat) (t : Bytes),
    findCRLF p = some j → ∃ k ≤ j, findCRLF (p ++ t) = some k := by
  intro p
  induction p with
  | nil => intro j t h; cases h
  | cons a p' ih =>
    intro j t h
    cases p' with
    | nil => cases h
    | cons b rest =>
      rw [findCRLF] at h
      rw [List.cons_append, List.cons_append, findCRLF, ← List.cons_append]
      split_ifs at h with hab
      · cases h
        rw [if_pos hab]
        exact ⟨0, le_refl 0, rfl⟩
      · rw [if_neg hab]
        simp only [Option.map_eq_some'] at h
        obtain ⟨j', hj', rfl⟩ := h
        obtain ⟨k', hk', hfind⟩ := ih j' t hj'
        exact ⟨k' + 1, by omega, by rw [hfind]; rfl⟩

/-- `parse_request` answers `WouldBlock` exactly when no CRLF was found. -/
theorem parse_wouldBlock_iff (buf : Bytes) :
    parse_request buf = .wouldBlock ↔ findCRLF buf = none := by
  unfold parse_request
  cases h : findCRLF buf with
  | none => simp
  | some i =>
    dsimp only
    cases hs : findSpace (trimBytes (buf.take i)) with
    | some j => simp
    | none =>
      split_ifs <;> simp

/-- Inversion of a successful parse: a CRLF was found, the consumed count is
its position plus two, and the trimmed region is one of the four verbs. -/
theorem parse_ok_inv (buf : Bytes) (r : AdminRequest) (n : Nat)
    (h : parse_request buf = .ok r n) :
    ∃ i, findCRLF buf = some i ∧ n = i + 2 ∧
      (trimBytes (buf.take i) = ascii "flush_all" ∨
       trimBytes (buf.take i) = ascii "stats" ∨
       trimBytes (buf.take i) = ascii "quit" ∨
       trimBytes (buf.take i) = ascii "version") := by
  unfold parse_request at h
  cases hf : findCRLF buf with
  | none => rw [hf] at h; cases h
  | some i =>
    rw [hf] at h
    dsimp only at h
    refine ⟨i, rfl, ?_⟩
    cases hs : findSpace (trimBytes (buf.take i)) with
    | some j => rw [hs] at h; cases h
    | none =>
      rw [hs] at h
      split_ifs at h with h1 h2 h3 h4
      · cases h; exact ⟨rfl, Or.inl h1⟩
      · cases h; exact ⟨rfl, Or.inr (Or.inl h2)⟩
      · cases h; exact ⟨rfl, Or.inr (Or.inr (Or.inl h3))⟩
      · cases h; exact ⟨rfl, Or.inr (Or.inr (Or.inr h4))⟩

/-- The trimmed region is a prefix of the region with its leading whitespace
dropped. -/
theorem trimBytes_isPre (l : Bytes) : trimBytes l <+: l.dropWhile isHWS := by
  unfold trimBytes
  have h : ((l.dropWhile isHWS).reverse.dropWhile isHWS) <:+ (l.dropWhile isHWS).reverse :=
    List.dropWhile_suffix isHWS
  have h2 := List.reverse_prefix.mpr h
  simpa using h2

/-- A region starting with a non-whitespace byte trims to the empty list or
to a list starting with that byte. -/
theorem trimBytes_head (x : Nat) (l : Bytes) (hx : isHWS x = false)
    (hne : trimBytes (x :: l) ≠ []) :
    ∃ t, trimBytes (x :: l) = x :: t := by
  have hpre : trimBytes (x :: l) <+: (x :: l).dropWhile isHWS := trimBytes_isPre (x :: l)
  rw [List.dropWhile_cons, if_neg (by simp [hx])] at hpre
  cases htr : trimBytes (x :: l) with
  | nil => exact absurd htr hne
  | cons y t =>
    rw [htr] at hpre
    obtain ⟨tt, htt⟩ := hpre
    simp only [List.cons_append, List.cons.injEq] at htt
    exact ⟨t, by rw [htt.1]⟩

/-- No complete admin request starts with the byte `x` (120): the trimmed
command region would start with it, yet every verb starts with another
byte. -/
theorem not_valid_x : ∀ t : Bytes, ¬ ValidRequest (120 :: t) := by
  rintro t ⟨r, hr⟩
  obtain ⟨i, _, _, hverb⟩ := parse_ok_inv _ r _ hr
  cases i with
  | zero =>
    simp only [List.take_zero, trimBytes, List.dropWhile_nil, List.reverse_nil] at hverb
    exact absurd hverb (by decide)
  | succ j =>
    rw [List.take_succ_cons] at hverb
    rcases hverb with h | h | h | h <;>
    · have hne : trimBytes (120 :: t.take j) ≠ [] := by rw [h]; decide
      obtain ⟨tt, htt⟩ := trimBytes_head 120 (t.take j) (by decide) hne
      rw [htt] at h
      simp [ascii] at h

/-- A proper prefix of a complete request contains no CRLF: the request's
only CRLF sits at its very end. -/
theorem valid_proper_no_crlf (P B : Bytes) (hv : ValidRequest B)
    (hpre : P <+: B) (hne : P ≠ B) : findCRLF P = none := by
  obtain ⟨r, hr⟩ := hv
  obtain ⟨i, hf, hn, _⟩ := parse_ok_inv B r B.length hr
  cases hj : findCRLF P with
  | none => rfl
  | some j =>
    have hjlen := findCRLF_le P j hj
    obtain ⟨t, rfl⟩ := hpre
    obtain ⟨k, hk, hfk⟩ := findCRLF_append P j t hj
    rw [hf] at hfk
    have hik : i = k := Option.some.inj hfk
    have ht : t ≠ [] := fun h0 => hne (by simp [h0])
    have htl : 0 < t.length := List.length_pos.mpr ht
    rw [List.length_append] at hn
    omega

/-- Counterexample to claim C4 as stated: the buffer `"x"` gets `WouldBlock`
(it holds no CRLF), yet it is not a proper prefix of any valid admin
request, since no complete request starts with the byte `x`. -/
theorem C4_counterexample :
    parse_request (ascii "x") = .wouldBlock ∧
    ¬ ∃ b : Bytes, ValidRequest b ∧ ascii "x" <+: b ∧ ascii "x" ≠ b := by
  refine ⟨by decide, ?_⟩
  rintro ⟨b, hv, ⟨t, ht⟩, hne⟩
  have hb : b = 120 :: t := by rw [← ht]; rfl
  rw [hb] at hv
  exact not_valid_x t hv

/-- Claim C4 (corrected): `WouldBlock` holds exactly when the input contains
no CRLF; every proper prefix of a valid request contains no CRLF and hence
gets `WouldBlock`, but not conversely (see the counterexample buffer `"x"`);
and every input containing a CRLF parses to a request or to `Invalid`. -/
theorem C4_wouldBlock :
    (∀ buf : Bytes, parse_request buf = .wouldBlock ↔ ¬ hasCRLF buf)
    ∧ (∀ P B : Bytes, ValidRequest B → P <+: B → P ≠ B →
        parse_request P = .wouldBlock)
    ∧ (∀ buf : Bytes, hasCRLF buf →
        (∃ r n, parse_request buf = .ok r n) ∨ parse_request buf = .invalid) := by
  have h1 : ∀ buf : Bytes, parse_request buf = .wouldBlock ↔ ¬ hasCRLF buf := by
    intro buf
    rw [parse_wouldBlock_iff, ← findCRLF_isSome_iff]
    cases findCRLF buf <;> simp
  refine ⟨h1, ?_, ?_⟩
  · intro P B hv hpre hne
    rw [parse_wouldBlock_iff]
    exact valid_proper_no_crlf P B hv hpre hne
  · intro buf hc
    cases hp : parse_request buf with
    | ok r n => exact Or.inl ⟨r, n, rfl⟩
    | wouldBlock => exact absurd ((h1 buf).mp hp) (not_not_intro hc)
    | invalid => exact Or.inr rfl

/-- Witness for C4: the proper prefix `"stats"` of the valid request
`"stats\r\n"` is answered with `WouldBlock`. -/
theorem C4_wouldBlock_witness :
    parse_request (ascii "stats") = ParseResult.wouldBlock :=
  C4_wouldBlock.2.1 (ascii "stats") (ascii "stats\r\n")
    ⟨AdminRequest.stats, by decide⟩ ⟨ascii "\r\n", by decide⟩ (by decide)

end Pelikan
